import Mathlib

/-!
Verification development for the `analyze-article-image` Supabase edge
function of the easyvinted repository
(src/supabase/functions/analyze-article-image/index.ts).

The TypeScript source is shallowly embedded: every branch of the handler
that a claim observes is translated to an executable Lean definition.
JavaScript runtime builtins that the source calls (`String.includes`,
`String.fromCharCode`, `btoa`, `JSON.parse`) are modelled by reference
definitions of their standard semantics; external collaborators
(the WHATWG URL parser, the storage download, the Gemini call, the auth
check) are supplied as request-scoped environment fields, since the
source only consumes their results.
-/

namespace EasyVinted

/-! ### JavaScript string and truthiness helpers -/

/-- JavaScript `s.includes(sub)`: `sub` occurs as a contiguous substring. -/
def jsIncludes (s sub : String) : Bool :=
  decide (sub.data <:+: s.data)

/-- JavaScript `x?.message || "Unknown error"` where the error object and its
`message` may each be absent, and the empty string is falsy (index.ts:159). -/
def jsOrUnknown (m : Option String) : String :=
  match m with
  | some s => if s.isEmpty then "Unknown error" else s
  | none => "Unknown error"

/-- JavaScript truthiness of a possibly-absent string (`null`/`undefined` and
`""` are falsy). -/
def jsTruthy (o : Option String) : Bool :=
  match o with
  | some s => !s.isEmpty
  | none => false

/-! ### Error classifier (index.ts:457-477)

The `catch (geminiError)` block inspects `geminiError?.message` and picks a
French user-facing message.  The category of the taxonomy in the spec is the
identity of the branch taken; `transient` appears in the spec taxonomy but no
branch of the source produces it. -/

inductive ErrorCategory where
  | quota_exhausted
  | invalid_credentials
  | transient
  | unknown
deriving DecidableEq

def quotaExhaustedMsg : String :=
  "Quota Gemini depasse. Veuillez reessayer plus tard ou activer la facturation sur Google Cloud."

def invalidKeyMsg : String :=
  "Cle API Gemini invalide ou manquante. Verifiez GEMINI_API_KEY dans les secrets Supabase."

def baseGeminiMsg : String :=
  "Erreur lors de l\x27analyse avec Gemini"

/-- Translation of index.ts:460-468: the message shown to the caller, paired
with the taxonomy bucket the branch corresponds to.  `message` is
`geminiError?.message` (`none` when the thrown value has no message). -/
def classifyGeminiError (message : Option String) : ErrorCategory × String :=
  match message with
  | some m =>
    if jsIncludes m "quota" || jsIncludes m "RESOURCE_EXHAUSTED" then
      (ErrorCategory.quota_exhausted, quotaExhaustedMsg)
    else if jsIncludes m "API key" then
      (ErrorCategory.invalid_credentials, invalidKeyMsg)
    else if !m.isEmpty then
      (ErrorCategory.unknown, baseGeminiMsg ++ ": " ++ m)
    else
      (ErrorCategory.unknown, baseGeminiMsg)
  | none => (ErrorCategory.unknown, baseGeminiMsg)

/-! ### Chunked base64 encoding (index.ts:165-174)

The source converts a `Uint8Array` to a "binary string" with
`String.fromCharCode` applied to 32 KiB chunks, concatenates the chunks, and
runs `btoa` once on the result.  Strings are modelled as lists of UTF-16 code
units (`List Nat`); `String.fromCharCode` reduces its argument modulo 2^16
(ToUint16), and bytes of a `Uint8Array` are always below 256. -/

/-- `String.fromCharCode(...codes)`: each argument taken modulo 2^16. -/
def jsFromCharCode (codes : List Nat) : List Nat :=
  codes.map (fun c => c % 65536)

/-- The naive whole-buffer conversion: one `String.fromCharCode` call over the
entire byte array (the variant the chunked loop replaces). -/
def naiveFromCharCode (bytes : List Nat) : List Nat :=
  jsFromCharCode bytes

/-- The chunking loop of index.ts:168-173, fuel-indexed so that it is
structurally recursive: while bytes remain, convert the next `chunkSize`-byte
slice and append.  `chunkedFromCharCode` supplies sufficient fuel. -/
def chunkedLoop (chunkSize : Nat) : Nat → List Nat → List Nat
  | 0, _ => []
  | fuel + 1, bytes =>
    if bytes.isEmpty then []
    else jsFromCharCode (bytes.take chunkSize) ++ chunkedLoop chunkSize fuel (bytes.drop chunkSize)

/-- Chunked conversion of a byte array to a binary string (code-unit list).
The source fixes `chunkSize = 0x8000`. -/
def chunkedFromCharCode (chunkSize : Nat) (bytes : List Nat) : List Nat :=
  chunkedLoop chunkSize (bytes.length + 1) bytes

/-- The base64 alphabet used by `btoa` (RFC 4648). -/
def b64Alphabet : List Char :=
  "ABCDEFGHIJKLMNOPQRSTUVWXYZabcdefghijklmnopqrstuvwxyz0123456789+/".data

/-- Character for a six-bit group. -/
def sextetChar (n : Nat) : Char :=
  b64Alphabet.getD n 'A'

/-- Index of a character in the base64 alphabet. -/
def sextetOf : List Char → Char → Option Nat
  | [], _ => none
  | a :: as, c => if c = a then some 0 else (sextetOf as c).map (· + 1)

/-- `btoa`: base64 encoding of a binary string, three code units at a time
(`btoa` throws for code units above 255; its callers here only ever pass
values below 256, see `processImage`). -/
def btoaJs : List Nat → List Char
  | [] => []
  | [b1] =>
    [sextetChar (b1 / 4), sextetChar (b1 % 4 * 16), '=', '=']
  | [b1, b2] =>
    [sextetChar (b1 / 4), sextetChar (b1 % 4 * 16 + b2 / 16), sextetChar (b2 % 16 * 4), '=']
  | b1 :: b2 :: b3 :: rest =>
    sextetChar (b1 / 4) :: sextetChar (b1 % 4 * 16 + b2 / 16) ::
    sextetChar (b2 % 16 * 4 + b3 / 64) :: sextetChar (b3 % 64) :: btoaJs rest

/-- Reference base64 decoder (standard RFC 4648 decoding with `=` padding),
the mathematical inverse used to state the round-trip law of the spec. -/
def base64Decode : List Char → Option (List Nat)
  | [] => some []
  | c1 :: c2 :: c3 :: c4 :: rest =>
    match sextetOf b64Alphabet c1, sextetOf b64Alphabet c2 with
    | some s1, some s2 =>
      if c3 = '=' then
        if c4 = '=' ∧ rest = [] then some [s1 * 4 + s2 / 16] else none
      else
        match sextetOf b64Alphabet c3 with
        | some s3 =>
          if c4 = '=' then
            if rest = [] then some [s1 * 4 + s2 / 16, s2 % 16 * 16 + s3 / 4] else none
          else
            match sextetOf b64Alphabet c4, base64Decode rest with
            | some s4, some bs =>
              some ((s1 * 4 + s2 / 16) :: (s2 % 16 * 16 + s3 / 4) :: (s3 % 4 * 64 + s4) :: bs)
            | _, _ => none
        | none => none
    | _, _ => none
  | _ => none

/-! ### JSON values and `JSON.parse` (used at index.ts:432)

JSON values as produced by `JSON.parse`.  Numbers are kept exact as
`mantissa * 10 ^ exponent` instead of IEEE-754 doubles; no field observed by
a claim performs float arithmetic, the parsed values are only copied. -/

inductive Json where
  | null
  | bool (b : Bool)
  | num (mantissa : Int) (exponent : Int)
  | str (s : String)
  | arr (elems : List Json)
  | obj (fields : List (String × Json))

/-- JSON whitespace. -/
def isJsonWs (c : Char) : Bool :=
  c = ' ' || c = '\t' || c = '\n' || c = '\r'

def skipWs : List Char → List Char
  | [] => []
  | c :: cs => if isJsonWs c then skipWs cs else c :: cs

/-- Hexadecimal digit value, for `\uXXXX` escapes. -/
def hexVal (c : Char) : Option Nat :=
  if '0' ≤ c ∧ c ≤ '9' then some (c.toNat - 48)
  else if 'a' ≤ c ∧ c ≤ 'f' then some (c.toNat - 87)
  else if 'A' ≤ c ∧ c ≤ 'F' then some (c.toNat - 55)
  else none

/-- Body of a JSON string literal, after the opening quote; returns the
decoded string and the input after the closing quote. -/
def parseStringBody : List Char → List Char → Option (String × List Char)
  | [], _ => none
  | '"' :: rest, acc => some (String.mk acc.reverse, rest)
  | '\\' :: rest, acc =>
    match rest with
    | '"' :: r => parseStringBody r ('"' :: acc)
    | '\\' :: r => parseStringBody r ('\\' :: acc)
    | '/' :: r => parseStringBody r ('/' :: acc)
    | 'b' :: r => parseStringBody r (Char.ofNat 8 :: acc)
    | 'f' :: r => parseStringBody r (Char.ofNat 12 :: acc)
    | 'n' :: r => parseStringBody r ('\n' :: acc)
    | 'r' :: r => parseStringBody r ('\r' :: acc)
    | 't' :: r => parseStringBody r ('\t' :: acc)
    | 'u' :: h1 :: h2 :: h3 :: h4 :: r =>
      match hexVal h1, hexVal h2, hexVal h3, hexVal h4 with
      | some a, some b, some c, some d =>
        parseStringBody r (Char.ofNat (a * 4096 + b * 256 + c * 16 + d) :: acc)
      | _, _, _, _ => none
    | _ => none
  | c :: rest, acc => if c.toNat < 32 then none else parseStringBody rest (c :: acc)

/-- Digit run and remainder. -/
def takeDigits (cs : List Char) : List Char × List Char :=
  (cs.takeWhile Char.isDigit, cs.dropWhile Char.isDigit)

def digitsToNat (ds : List Char) : Nat :=
  ds.foldl (fun n c => n * 10 + (c.toNat - 48)) 0

/-- Fraction and exponent suffix of a JSON number, given the integer digits
already consumed. -/
def parseNumberTail (neg : Bool) (intDs : List Char) (cs : List Char) :
    Option (Json × List Char) :=
  let fracStep : Option (List Char × List Char) :=
    match cs with
    | '.' :: r =>
      let p := takeDigits r
      if p.1.isEmpty then none else some (p.1, p.2)
    | _ => some ([], cs)
  match fracStep with
  | none => none
  | some (fracDs, cs1) =>
    let expStep : Option (Int × List Char) :=
      match cs1 with
      | 'e' :: r | 'E' :: r =>
        let signedDigits : Option (Bool × List Char) :=
          match r with
          | '-' :: r2 => some (true, r2)
          | '+' :: r2 => some (false, r2)
          | _ => some (false, r)
        match signedDigits with
        | some (eneg, r2) =>
          let p := takeDigits r2
          if p.1.isEmpty then none
          else some ((if eneg then -(digitsToNat p.1 : Int) else (digitsToNat p.1 : Int)), p.2)
        | none => none
      | _ => some (0, cs1)
    match expStep with
    | none => none
    | some (e, cs2) =>
      let mant : Int := digitsToNat intDs * 10 ^ fracDs.length + digitsToNat fracDs
      some (Json.num (if neg then -mant else mant) (e - fracDs.length), cs2)

/-- A complete JSON number starting at `cs` (sign and integer part, then the
tail); enforces the JSON grammar's leading-zero rule. -/
def parseNumber (cs : List Char) : Option (Json × List Char) :=
  let signed : Bool × List Char :=
    match cs with
    | '-' :: r => (true, r)
    | _ => (false, cs)
  match signed.2 with
  | '0' :: r =>
    match r with
    | c :: _ => if c.isDigit then none else parseNumberTail signed.1 ['0'] r
    | [] => parseNumberTail signed.1 ['0'] []
  | c :: r =>
    if c.isDigit then
      let p := takeDigits (c :: r)
      parseNumberTail signed.1 p.1 p.2
    else none
  | [] => none

/-- Mode of the fuel-indexed recursive-descent core: a single value, the
remaining elements of an array, or the remaining members of an object. -/
inductive PMode where
  | value
  | elems (acc : List Json)
  | fields (acc : List (String × Json))

/-- Recursive-descent core of `JSON.parse`, structurally recursive on fuel. -/
def parseCore : Nat → PMode → List Char → Option (Json × List Char)
  | 0, _, _ => none
  | fuel + 1, PMode.value, cs =>
    match cs with
    | 'n' :: 'u' :: 'l' :: 'l' :: rest => some (Json.null, rest)
    | 't' :: 'r' :: 'u' :: 'e' :: rest => some (Json.bool true, rest)
    | 'f' :: 'a' :: 'l' :: 's' :: 'e' :: rest => some (Json.bool false, rest)
    | '"' :: rest => (parseStringBody rest []).map (fun p => (Json.str p.1, p.2))
    | '[' :: rest =>
      match skipWs rest with
      | ']' :: r => some (Json.arr [], r)
      | cs1 => parseCore fuel (PMode.elems []) cs1
    | '{' :: rest =>
      match skipWs rest with
      | '}' :: r => some (Json.obj [], r)
      | cs1 => parseCore fuel (PMode.fields []) cs1
    | c :: _ => if c = '-' || c.isDigit then parseNumber cs else none
    | [] => none
  | fuel + 1, PMode.elems acc, cs =>
    match parseCore fuel PMode.value cs with
    | none => none
    | some (v, r) =>
      match skipWs r with
      | ',' :: r2 => parseCore fuel (PMode.elems (acc ++ [v])) (skipWs r2)
      | ']' :: r2 => some (Json.arr (acc ++ [v]), r2)
      | _ => none
  | fuel + 1, PMode.fields acc, cs =>
    match cs with
    | '"' :: rest =>
      match parseStringBody rest [] with
      | none => none
      | some (k, r) =>
        match skipWs r with
        | ':' :: r2 =>
          match parseCore fuel PMode.value (skipWs r2) with
          | none => none
          | some (v, r3) =>
            match skipWs r3 with
            | ',' :: r4 =>
              match skipWs r4 with
              | cs2 => parseCore fuel (PMode.fields (acc ++ [(k, v)])) cs2
            | '}' :: r4 => some (Json.obj (acc ++ [(k, v)]), r4)
            | _ => none
        | _ => none
    | _ => none

/-- `JSON.parse`: parse one value surrounded by optional whitespace;
`none` models the thrown `SyntaxError`. -/
def jsonParse (s : String) : Option Json :=
  match parseCore (2 * s.length + 2) PMode.value (skipWs s.data) with
  | some (v, rest) => if (skipWs rest).isEmpty then some v else none
  | none => none

/-! ### Response normalization (index.ts:432-452)

`JSON.parse(response.text)` followed by field-by-field construction of the
`AnalysisResult` object.  Property access `parsedResponse.f` on a JavaScript
value: `undefined` (modelled `none`) when the field is absent or the value is
not an object; for duplicate keys the later one wins; access on `null`
throws a `TypeError`. -/

/-- JavaScript property lookup on a parsed JSON value (non-`null`). -/
def jsGet (j : Json) (name : String) : Option Json :=
  match j with
  | Json.obj fs => fs.foldl (fun acc p => if p.1 = name then some p.2 else acc) none
  | _ => none

/-- The `AnalysisResult` record (index.ts:13-30) as constructed at runtime:
every field holds whatever `parsedResponse.<field>` evaluated to, `none`
standing for `undefined`.  No validation or coercion is applied. -/
structure AnalysisResult where
  title : Option Json
  description : Option Json
  brand : Option Json
  category : Option Json
  subcategory : Option Json
  color : Option Json
  material : Option Json
  size : Option Json
  condition : Option Json
  season : Option Json
  suggestedPeriod : Option Json
  estimatedPrice : Option Json
  seoKeywords : Option Json
  hashtags : Option Json
  searchTerms : Option Json
  confidenceScore : Option Json

/-- Field-by-field construction of index.ts:435-452. -/
def buildAnalysisResult (j : Json) : AnalysisResult where
  title := jsGet j "title"
  description := jsGet j "description"
  brand := jsGet j "brand"
  category := jsGet j "category"
  subcategory := jsGet j "subcategory"
  color := jsGet j "color"
  material := jsGet j "material"
  size := jsGet j "size"
  condition := jsGet j "condition"
  season := jsGet j "season"
  suggestedPeriod := jsGet j "suggestedPeriod"
  estimatedPrice := jsGet j "estimatedPrice"
  seoKeywords := jsGet j "seoKeywords"
  hashtags := jsGet j "hashtags"
  searchTerms := jsGet j "searchTerms"
  confidenceScore := jsGet j "confidenceScore"

/-- Failure modes of the parse-and-construct step: `JSON.parse` throwing a
`SyntaxError`, or property access on a parsed `null` throwing a `TypeError`.
The source contains no schema-validation failure mode. -/
inductive NormError where
  | parseError
  | nullAccess
deriving DecidableEq

/-- The normalization step of index.ts:432-452: parse the raw model reply and
copy the fields through unchanged. -/
def normalize (rawText : String) : Except NormError AnalysisResult :=
  match jsonParse rawText with
  | none => Except.error NormError.parseError
  | some Json.null => Except.error NormError.nullAccess
  | some j => Except.ok (buildAnalysisResult j)

/-! ### Image ingestion loop (index.ts:134-192)

Per request, each entry of `imageUrls` is processed in order inside a
`try`/`catch`: parse the URL, match the storage path pattern, download, and
chunk-encode.  `new URL` (WHATWG) and `supabase.storage.download` are
external collaborators, supplied through `IngestEnv`. -/

/-- A successfully downloaded storage object: its declared content type
(`Blob.type`, the empty string when the backend supplies none) and raw bytes
(each below 256, being a `Uint8Array` view). -/
structure FileBlob where
  type : String
  bytes : List Nat

/-- Result of `supabase.storage.from("article-photos").download(path)`:
a `data`/`error` pair.  The inner `Option String` of `error` is the error
object's possibly-absent `message`. -/
structure DownloadResult where
  data : Option FileBlob
  error : Option (Option String)

/-- External collaborators consumed by the loop: `urlParse` models
`new URL(url).pathname` (`Except.error m` models the thrown `TypeError` with
message `m`), `download` the storage backend. -/
structure IngestEnv where
  urlParse : String → Except String String
  download : String → DownloadResult

/-- One encoded payload for the AI call (`inlineData` of index.ts:181-186). -/
structure EncodedImagePart where
  mimeType : String
  data : List Char

/-- The literal of the regex `/\/storage\/v1\/object\/public\/article-photos\/(.+)$/`
(index.ts:142). -/
def storageMarker : List Char :=
  "/storage/v1/object/public/article-photos/".data

/-- Leftmost match of the storage-path regex against a pathname: the capture
`(.+)$` is everything after the first occurrence of the literal marker,
provided it is nonempty.  (A pathname produced by the WHATWG parser contains
no raw newline, so `.` excludes nothing here.) -/
def extractAfterMarker : List Char → Option (List Char)
  | [] => none
  | c :: cs =>
    if storageMarker.isPrefixOf (c :: cs) then
      let rest := (c :: cs).drop storageMarker.length
      if rest.isEmpty then none else some rest
    else extractAfterMarker cs

/-- The body of one iteration of the loop (index.ts:138-191): either an
encoded part (pushed to `imageParts`) or the failure string (pushed to
`errors`).  The trailing `catch` makes every outcome a value - the loop
never raises. -/
def processImage (env : IngestEnv) (url : String) : Except String EncodedImagePart :=
  match env.urlParse url with
  | Except.error m => Except.error ("Error processing image " ++ url ++ ": " ++ m)
  | Except.ok pathname =>
    match extractAfterMarker pathname.data with
    | none => Except.error ("Invalid storage URL format: " ++ url)
    | some pathChars =>
      let filePath := String.mk pathChars
      let res := env.download filePath
      match res.error, res.data with
      | some e, _ =>
        Except.error ("Failed to download " ++ filePath ++ ": " ++ jsOrUnknown e)
      | none, none =>
        Except.error ("Failed to download " ++ filePath ++ ": Unknown error")
      | none, some blob =>
        Except.ok
          { mimeType := if blob.type.isEmpty then "image/jpeg" else blob.type,
            data := btoaJs (chunkedFromCharCode 32768 blob.bytes) }

/-- One loop step: append to `imageParts` or to `errors`. -/
def ingestStep (env : IngestEnv) (acc : List EncodedImagePart × List String)
    (url : String) : List EncodedImagePart × List String :=
  match processImage env url with
  | Except.ok p => (acc.1 ++ [p], acc.2)
  | Except.error e => (acc.1, acc.2 ++ [e])

/-- The whole ingestion loop: `(imageParts, errors)` after processing every
URL in input order. -/
def ingest (env : IngestEnv) (urls : List String) :
    List EncodedImagePart × List String :=
  urls.foldl (ingestStep env) ([], [])

/-- The success payload of one reference, when it has one. -/
def okPart (r : Except String EncodedImagePart) : Option EncodedImagePart :=
  match r with
  | Except.ok p => some p
  | Except.error _ => none

/-- The failure string of one reference, when it has one. -/
def errReason (r : Except String EncodedImagePart) : Option String :=
  match r with
  | Except.ok _ => none
  | Except.error e => some e

/-- Whether a reference is well-formed and fetchable under `env`. -/
def refSucceeds (env : IngestEnv) (url : String) : Bool :=
  match processImage env url with
  | Except.ok _ => true
  | Except.error _ => false

/-! ### HTTP handler (index.ts:32-488)

The `Deno.serve` callback.  Request-scoped external inputs are collected in
`HandlerEnv`; the second component of the result records whether the Gemini
call (`ai.models.generateContent`, index.ts:378) was reached.  The
`writingStyle` resolution (index.ts:92-120) and the prompt construction
(index.ts:210-366) only shape the prompt text sent to Gemini, which no
modelled observation inspects; they cannot throw (Supabase query errors are
returned as values) and are elided. -/

/-- The `imageUrls` field of the parsed request body, as the guard of
index.ts:123 distinguishes it: absent/falsy, present but not an array, or an
array of URL strings. -/
inductive ImageUrlsField where
  | absent
  | nonArray
  | arr (urls : List String)

structure RequestBody where
  imageUrls : ImageUrlsField

/-- Request-scoped inputs of one invocation. -/
structure HandlerEnv where
  /-- `req.method`. -/
  method : String
  /-- `Deno.env.get("GEMINI_API_KEY")`. -/
  geminiApiKey : Option String
  /-- `req.headers.get("Authorization")`. -/
  authHeader : Option String
  /-- Whether `supabase.auth.getUser()` yielded a user without error. -/
  authOk : Bool
  /-- `await req.json()`; `Except.error m` models the rejection with message
  `m` (caught by the outer catch). -/
  body : Except (Option String) RequestBody
  /-- `new URL(url).pathname` per URL. -/
  urlParse : String → Except String String
  /-- The storage download per path. -/
  download : String → DownloadResult
  /-- The Gemini call: thrown error (with optional message) or
  `response.text` (absent when `undefined`). -/
  aiResult : Except (Option String) (Option String)
  /-- Message of the `SyntaxError` thrown by `JSON.parse` on a malformed
  reply (engine-generated text). -/
  syntaxErrMsg : String
  /-- Message of the `TypeError` thrown by property access when the reply
  parses to `null`. -/
  nullAccessMsg : String

/-- A response body: `null` (the OPTIONS preflight), an error object
`{ error, details? }`, or a 200 analysis result. -/
inductive ResponseBody where
  | empty
  | errorBody (error : String) (details : Option (List String))
  | resultBody (r : AnalysisResult)

structure HttpResponse where
  status : Nat
  body : ResponseBody

def geminiKeyMissingMsg : String :=
  "La cle API Gemini n\x27est pas configuree. Veuillez configurer GEMINI_API_KEY dans les secrets de votre projet Supabase."

def authHeaderMissingMsg : String := "Authorization header manquant"

def unauthenticatedMsg : String := "Utilisateur non authentifie"

def noImageUrlMsg : String := "Au moins une URL d\x27image est requise"

def loadImagesFailedMsg : String := "Impossible de charger les images depuis le stockage."

def emptyAiReplyMsg : String := "L\x27IA n\x27a pas pu analyser les images. Veuillez reessayer."

def serverErrorHead : String := "Erreur serveur: "

/-- The handler, index.ts:32-488, branch for branch.  Returns the response
and whether the Gemini call was reached. -/
def handler (env : HandlerEnv) : HttpResponse × Bool :=
  if env.method = "OPTIONS" then
    ({ status := 200, body := ResponseBody.empty }, false)
  else if !jsTruthy env.geminiApiKey then
    ({ status := 500, body := ResponseBody.errorBody geminiKeyMissingMsg none }, false)
  else if !jsTruthy env.authHeader then
    ({ status := 401, body := ResponseBody.errorBody authHeaderMissingMsg none }, false)
  else if !env.authOk then
    ({ status := 401, body := ResponseBody.errorBody unauthenticatedMsg none }, false)
  else
    match env.body with
    | Except.error m =>
      ({ status := 500, body := ResponseBody.errorBody (serverErrorHead ++ jsOrUnknown m) none }, false)
    | Except.ok rb =>
      match rb.imageUrls with
      | ImageUrlsField.absent =>
        ({ status := 400, body := ResponseBody.errorBody noImageUrlMsg none }, false)
      | ImageUrlsField.nonArray =>
        ({ status := 400, body := ResponseBody.errorBody noImageUrlMsg none }, false)
      | ImageUrlsField.arr urls =>
        if urls.isEmpty then
          ({ status := 400, body := ResponseBody.errorBody noImageUrlMsg none }, false)
        else
          let res := ingest { urlParse := env.urlParse, download := env.download } urls
          if res.1.isEmpty then
            ({ status := 400,
               body := ResponseBody.errorBody loadImagesFailedMsg (some (res.2.take 3)) }, false)
          else
            match env.aiResult with
            | Except.error m =>
              ({ status := 500, body := ResponseBody.errorBody (classifyGeminiError m).2 none }, true)
            | Except.ok t =>
              if !jsTruthy t then
                ({ status := 500, body := ResponseBody.errorBody emptyAiReplyMsg none }, true)
              else
                match normalize (t.getD "") with
                | Except.error NormError.parseError =>
                  ({ status := 500,
                     body := ResponseBody.errorBody (classifyGeminiError (some env.syntaxErrMsg)).2 none }, true)
                | Except.error NormError.nullAccess =>
                  ({ status := 500,
                     body := ResponseBody.errorBody (classifyGeminiError (some env.nullAccessMsg)).2 none }, true)
                | Except.ok r =>
                  ({ status := 200, body := ResponseBody.resultBody r }, true)

/-! ### Concrete test fixtures

Concrete inputs used by witnesses and counterexamples (the raw strings of the
spec's testable properties, and small environments). -/

/-- The not-JSON input of the spec (its opening brace written as an escape). -/
def rawNotJson : String := "\x7bnot json"

/-- The seven-required-field object of the spec's normalization test. -/
def analysisFullJson : String :=
  "\x7b\"title\":\"T\",\"description\":\"D\",\"brand\":\"B\",\"category\":\"tops\",\"color\":\"Noir\",\"condition\":\"good\",\"season\":\"summer\"\x7d"

def jsonMissingTitle : String :=
  "\x7b\"description\":\"D\",\"brand\":\"B\",\"category\":\"tops\",\"color\":\"Noir\",\"condition\":\"good\",\"season\":\"summer\"\x7d"

def jsonMissingDescription : String :=
  "\x7b\"title\":\"T\",\"brand\":\"B\",\"category\":\"tops\",\"color\":\"Noir\",\"condition\":\"good\",\"season\":\"summer\"\x7d"

def jsonMissingBrand : String :=
  "\x7b\"title\":\"T\",\"description\":\"D\",\"category\":\"tops\",\"color\":\"Noir\",\"condition\":\"good\",\"season\":\"summer\"\x7d"

def jsonMissingCategory : String :=
  "\x7b\"title\":\"T\",\"description\":\"D\",\"brand\":\"B\",\"color\":\"Noir\",\"condition\":\"good\",\"season\":\"summer\"\x7d"

def jsonMissingColor : String :=
  "\x7b\"title\":\"T\",\"description\":\"D\",\"brand\":\"B\",\"category\":\"tops\",\"condition\":\"good\",\"season\":\"summer\"\x7d"

def jsonMissingCondition : String :=
  "\x7b\"title\":\"T\",\"description\":\"D\",\"brand\":\"B\",\"category\":\"tops\",\"color\":\"Noir\",\"season\":\"summer\"\x7d"

def jsonMissingSeason : String :=
  "\x7b\"title\":\"T\",\"description\":\"D\",\"brand\":\"B\",\"category\":\"tops\",\"color\":\"Noir\",\"condition\":\"good\"\x7d"

/-- Same object but with an empty `title`. -/
def jsonEmptyTitle : String :=
  "\x7b\"title\":\"\",\"description\":\"D\",\"brand\":\"B\",\"category\":\"tops\",\"color\":\"Noir\",\"condition\":\"good\",\"season\":\"summer\"\x7d"

/-- Builds the expected `AnalysisResult` for the test objects: the seven
required-field slots as given, every optional field `undefined`. -/
def mkTestResult (t d br cat col cond sea : Option Json) : AnalysisResult :=
  { title := t, description := d, brand := br, category := cat,
    subcategory := none, color := col, material := none, size := none,
    condition := cond, season := sea, suggestedPeriod := none,
    estimatedPrice := none, seoKeywords := none, hashtags := none,
    searchTerms := none, confidenceScore := none }

/-- The expected result for `analysisFullJson`. -/
def fullTestResult : AnalysisResult :=
  mkTestResult (some (Json.str "T")) (some (Json.str "D")) (some (Json.str "B"))
    (some (Json.str "tops")) (some (Json.str "Noir")) (some (Json.str "good"))
    (some (Json.str "summer"))

/-- An environment in which every reference parses to the pathname `/nope`,
which does not match the storage pattern. -/
def envBadPath : IngestEnv :=
  { urlParse := fun _ => Except.ok "/nope",
    download := fun _ => { data := none, error := none } }

/-- A request with no API key configured and no authentication at all. -/
def envNoKey : HandlerEnv :=
  { method := "POST", geminiApiKey := none, authHeader := none, authOk := false,
    body := Except.error none,
    urlParse := fun _ => Except.error "Invalid URL",
    download := fun _ => { data := none, error := none },
    aiResult := Except.error none,
    syntaxErrMsg := "", nullAccessMsg := "" }

/-- An authenticated request whose body parsing rejects with message
`boom`. -/
def envBodyBoom : HandlerEnv :=
  { method := "POST", geminiApiKey := some "k", authHeader := some "Bearer t",
    authOk := true,
    body := Except.error (some "boom"),
    urlParse := fun _ => Except.error "Invalid URL",
    download := fun _ => { data := none, error := none },
    aiResult := Except.error none,
    syntaxErrMsg := "", nullAccessMsg := "" }

/-- An authenticated request with one reference whose URL constructor
throws, so that every reference fails ingestion. -/
def envAllFail : HandlerEnv :=
  { method := "POST", geminiApiKey := some "k", authHeader := some "Bearer t",
    authOk := true,
    body := Except.ok { imageUrls := ImageUrlsField.arr ["u1"] },
    urlParse := fun _ => Except.error "Invalid URL",
    download := fun _ => { data := none, error := none },
    aiResult := Except.error none,
    syntaxErrMsg := "", nullAccessMsg := "" }

/-! ## Helper lemmas -/

theorem jsIncludes_append_right (a b : String) : jsIncludes (a ++ b) b = true := by
  simp only [jsIncludes, decide_eq_true_iff]
  exact ⟨a.data, [], by simp⟩

theorem jsIncludes_of_left (a b sub : String) (h : jsIncludes a sub = true) :
    jsIncludes (a ++ b) sub = true := by
  simp only [jsIncludes, decide_eq_true_iff] at h ⊢
  obtain ⟨s, t, hst⟩ := h
  exact ⟨s, t ++ b.data, by rw [show (a ++ b).data = a.data ++ b.data from rfl, ← hst]; simp⟩

theorem jsIncludes_empty (s : String) : jsIncludes s "" = true := by
  simp only [jsIncludes, decide_eq_true_iff]
  exact ⟨[], s.data, by simp⟩

/-! ## Claim C6: upstream error classification -/

/-- C6: the `geminiError` catch maps a message containing `quota` or
`RESOURCE_EXHAUSTED` to `quota_exhausted`, otherwise a message containing
`API key` to `invalid_credentials`, and otherwise to `unknown` with the
original message text preserved in the string shown to the caller (the
branches are tried in this order, as in index.ts:462-468). -/
theorem claim_C6_error_classification (msg : String) :
    ((jsIncludes msg "quota" = true ∨ jsIncludes msg "RESOURCE_EXHAUSTED" = true) →
      classifyGeminiError (some msg) = (ErrorCategory.quota_exhausted, quotaExhaustedMsg))
  ∧ (jsIncludes msg "quota" = false → jsIncludes msg "RESOURCE_EXHAUSTED" = false →
      jsIncludes msg "API key" = true →
      classifyGeminiError (some msg) = (ErrorCategory.invalid_credentials, invalidKeyMsg))
  ∧ (jsIncludes msg "quota" = false → jsIncludes msg "RESOURCE_EXHAUSTED" = false →
      jsIncludes msg "API key" = false →
      (classifyGeminiError (some msg)).1 = ErrorCategory.unknown ∧
      jsIncludes (classifyGeminiError (some msg)).2 msg = true) := by
  refine ⟨?_, ?_, ?_⟩
  · rintro (h | h) <;> simp [classifyGeminiError, h]
  · intro h1 h2 h3
    simp [classifyGeminiError, h1, h2, h3]
  · intro h1 h2 h3
    by_cases he : msg.isEmpty
    · have : msg = "" := (String.isEmpty_iff msg).mp he
      subst this
      exact ⟨by decide, by decide⟩
    · simp only [classifyGeminiError, h1, h2, h3, he, Bool.false_or, if_false,
        Bool.not_false, if_true]
      exact ⟨rfl, jsIncludes_append_right (baseGeminiMsg ++ ": ") msg⟩

theorem claim_C6_error_classification_witness :
    classifyGeminiError (some "got RESOURCE_EXHAUSTED from upstream") =
      (ErrorCategory.quota_exhausted, quotaExhaustedMsg)
  ∧ classifyGeminiError (some "invalid API key") =
      (ErrorCategory.invalid_credentials, invalidKeyMsg)
  ∧ (classifyGeminiError (some "socket hangup")).1 = ErrorCategory.unknown
  ∧ jsIncludes (classifyGeminiError (some "socket hangup")).2 "socket hangup" = true := by
  refine ⟨(claim_C6_error_classification _).1 (Or.inr (by decide)),
          (claim_C6_error_classification _).2.1 (by decide) (by decide) (by decide),
          ((claim_C6_error_classification _).2.2 (by decide) (by decide) (by decide)).1,
          ((claim_C6_error_classification _).2.2 (by decide) (by decide) (by decide)).2⟩

/-! ## Claims C2 and C10: chunked base64 encoding -/

theorem sextetOf_sextetChar : ∀ t, t < 64 → sextetOf b64Alphabet (sextetChar t) = some t := by
  decide

theorem sextetChar_ne_pad : ∀ t, t < 64 → sextetChar t ≠ '=' := by
  decide

theorem chunkedLoop_eq (cs : Nat) (hcs : 0 < cs) :
    ∀ fuel bytes, bytes.length < fuel → chunkedLoop cs fuel bytes = jsFromCharCode bytes := by
  intro fuel
  induction fuel with
  | zero => exact fun bytes h => absurd h (by omega)
  | succ n ih =>
    intro bytes h
    by_cases hb : bytes.isEmpty
    · have hnil : bytes = [] := List.isEmpty_iff.mp hb
      subst hnil
      simp [chunkedLoop, jsFromCharCode]
    · have hne : bytes ≠ [] := fun hn => hb (by simp [hn])
      have hlen : 0 < bytes.length := List.length_pos.mpr hne
      have hdrop : (bytes.drop cs).length < n := by
        rw [List.length_drop]
        omega
      simp only [chunkedLoop, hb, Bool.false_eq_true, if_false, ih (bytes.drop cs) hdrop,
        jsFromCharCode, ← List.map_append, List.take_append_drop]

theorem chunkedFromCharCode_eq (cs : Nat) (hcs : 0 < cs) (bytes : List Nat) :
    chunkedFromCharCode cs bytes = naiveFromCharCode bytes :=
  chunkedLoop_eq cs hcs (bytes.length + 1) bytes (Nat.lt_succ_self _)

theorem base64_roundtrip (bs : List Nat) (h : ∀ b ∈ bs, b < 256) :
    base64Decode (btoaJs bs) = some bs := by
  induction bs using btoaJs.induct with
  | case1 => rfl
  | case2 b1 =>
    have hb1 : b1 < 256 := h b1 (by simp)
    simp only [btoaJs, base64Decode,
      sextetOf_sextetChar (b1 / 4) (by omega : b1 / 4 < 64),
      sextetOf_sextetChar (b1 % 4 * 16) (by omega : b1 % 4 * 16 < 64)]
    simp
    omega
  | case3 b1 b2 =>
    have hb1 : b1 < 256 := h b1 (by simp)
    have hb2 : b2 < 256 := h b2 (by simp)
    have hne3 : sextetChar (b2 % 16 * 4) ≠ '=' :=
      sextetChar_ne_pad (b2 % 16 * 4) (by omega)
    simp only [btoaJs, base64Decode,
      sextetOf_sextetChar (b1 / 4) (by omega : b1 / 4 < 64),
      sextetOf_sextetChar (b1 % 4 * 16 + b2 / 16) (by omega : b1 % 4 * 16 + b2 / 16 < 64),
      sextetOf_sextetChar (b2 % 16 * 4) (by omega : b2 % 16 * 4 < 64)]
    simp [hne3]
    omega
  | case4 b1 b2 b3 rest ih =>
    have hb1 : b1 < 256 := h b1 (by simp)
    have hb2 : b2 < 256 := h b2 (by simp)
    have hb3 : b3 < 256 := h b3 (by simp)
    have hrest : ∀ b ∈ rest, b < 256 := fun b hb => h b (by simp [hb])
    have hne3 : sextetChar (b2 % 16 * 4 + b3 / 64) ≠ '=' :=
      sextetChar_ne_pad (b2 % 16 * 4 + b3 / 64) (by omega)
    have hne4 : sextetChar (b3 % 64) ≠ '=' :=
      sextetChar_ne_pad (b3 % 64) (by omega)
    simp only [btoaJs, base64Decode,
      sextetOf_sextetChar (b1 / 4) (by omega : b1 / 4 < 64),
      sextetOf_sextetChar (b1 % 4 * 16 + b2 / 16) (by omega : b1 % 4 * 16 + b2 / 16 < 64),
      sextetOf_sextetChar (b2 % 16 * 4 + b3 / 64)
        (by omega : b2 % 16 * 4 + b3 / 64 < 64),
      sextetOf_sextetChar (b3 % 64) (by omega : b3 % 64 < 64),
      ih hrest]
    simp [hne3, hne4]
    omega

/-- C10: the 32 KiB-chunk `String.fromCharCode` concatenation followed by one
`btoa` pass produces exactly the same output as the naive whole-buffer
conversion followed by the same `btoa` pass, for every byte array: the
chunking never changes the result. -/
theorem claim_C10_chunking_refinement (bytes : List Nat) :
    btoaJs (chunkedFromCharCode 32768 bytes) = btoaJs (naiveFromCharCode bytes) := by
  rw [chunkedFromCharCode_eq 32768 (by omega) bytes]

/-- C2: for every byte sequence (bytes of a `Uint8Array`, hence below 256),
the chunked base64 encoding of index.ts:165-174 round-trips: base64-decoding
the encoded result reproduces the original bytes exactly.  The statement is
universally quantified, so it covers the empty buffer and buffers whose
length is an exact multiple of the 32 KiB chunk size. -/
theorem claim_C2_base64_roundtrip (bytes : List Nat) (h : ∀ b ∈ bytes, b < 256) :
    base64Decode (btoaJs (chunkedFromCharCode 32768 bytes)) = some bytes := by
  rw [chunkedFromCharCode_eq 32768 (by omega) bytes]
  have hid : naiveFromCharCode bytes = bytes := by
    simp only [naiveFromCharCode, jsFromCharCode]
    calc bytes.map (fun c => c % 65536) = bytes.map id := by
          exact List.map_congr_left fun b hb => Nat.mod_eq_of_lt (by have := h b hb; omega)
      _ = bytes := List.map_id bytes
  rw [hid]
  exact base64_roundtrip bytes h

theorem claim_C2_base64_roundtrip_witness :
    base64Decode (btoaJs (chunkedFromCharCode 32768 [])) = some ([] : List Nat)
  ∧ base64Decode (btoaJs (chunkedFromCharCode 32768 [0, 255, 7, 128, 33])) =
      some [0, 255, 7, 128, 33] :=
  ⟨claim_C2_base64_roundtrip [] (by simp),
   claim_C2_base64_roundtrip [0, 255, 7, 128, 33] (by decide)⟩

/-! ## Claims C4 and C5: normalization -/

/-- C4 counterexample: valid JSON lacking the required field `title` does
NOT make `normalize` fail - index.ts:432-452 performs no schema validation,
so the construction succeeds with `title` left `undefined`, contradicting
the claim that it fails with a `SchemaError` naming the missing field. -/
theorem claim_C4_counterexample :
    normalize jsonMissingTitle =
      Except.ok (mkTestResult none (some (Json.str "D")) (some (Json.str "B"))
        (some (Json.str "tops")) (some (Json.str "Noir")) (some (Json.str "good"))
        (some (Json.str "summer"))) := by
  rfl

/-- C4 (amended): `normalize` fails with a parse error for the input
`\x7bnot json`; but for valid JSON in which any one of the seven required
fields is missing (or `title` is empty) it does not fail at all: no schema
check exists in the source, the field is simply `undefined` (resp. the empty
string) in the returned `AnalysisResult`. -/
theorem claim_C4_amended_no_schema_error :
    normalize rawNotJson = Except.error NormError.parseError
  ∧ normalize jsonMissingTitle =
      Except.ok (mkTestResult none (some (Json.str "D")) (some (Json.str "B"))
        (some (Json.str "tops")) (some (Json.str "Noir")) (some (Json.str "good"))
        (some (Json.str "summer")))
  ∧ normalize jsonMissingDescription =
      Except.ok (mkTestResult (some (Json.str "T")) none (some (Json.str "B"))
        (some (Json.str "tops")) (some (Json.str "Noir")) (some (Json.str "good"))
        (some (Json.str "summer")))
  ∧ normalize jsonMissingBrand =
      Except.ok (mkTestResult (some (Json.str "T")) (some (Json.str "D")) none
        (some (Json.str "tops")) (some (Json.str "Noir")) (some (Json.str "good"))
        (some (Json.str "summer")))
  ∧ normalize jsonMissingCategory =
      Except.ok (mkTestResult (some (Json.str "T")) (some (Json.str "D"))
        (some (Json.str "B")) none (some (Json.str "Noir")) (some (Json.str "good"))
        (some (Json.str "summer")))
  ∧ normalize jsonMissingColor =
      Except.ok (mkTestResult (some (Json.str "T")) (some (Json.str "D"))
        (some (Json.str "B")) (some (Json.str "tops")) none (some (Json.str "good"))
        (some (Json.str "summer")))
  ∧ normalize jsonMissingCondition =
      Except.ok (mkTestResult (some (Json.str "T")) (some (Json.str "D"))
        (some (Json.str "B")) (some (Json.str "tops")) (some (Json.str "Noir")) none
        (some (Json.str "summer")))
  ∧ normalize jsonMissingSeason =
      Except.ok (mkTestResult (some (Json.str "T")) (some (Json.str "D"))
        (some (Json.str "B")) (some (Json.str "tops")) (some (Json.str "Noir"))
        (some (Json.str "good")) none)
  ∧ normalize jsonEmptyTitle =
      Except.ok (mkTestResult (some (Json.str "")) (some (Json.str "D"))
        (some (Json.str "B")) (some (Json.str "tops")) (some (Json.str "Noir"))
        (some (Json.str "good")) (some (Json.str "summer"))) :=
  ⟨rfl, rfl, rfl, rfl, rfl, rfl, rfl, rfl, rfl⟩

/-- C5: `normalize` on the seven-field object returns an `AnalysisResult`
carrying exactly those values with every optional field `undefined`; and for
every parsed object, each optional field of the constructed record is the
raw looked-up property, copied through unchanged with no coercion or
vocabulary repair. -/
theorem claim_C5_normalize_copies_through :
    normalize analysisFullJson = Except.ok fullTestResult
  ∧ ∀ fs : List (String × Json),
      (buildAnalysisResult (Json.obj fs)).subcategory = jsGet (Json.obj fs) "subcategory"
    ∧ (buildAnalysisResult (Json.obj fs)).material = jsGet (Json.obj fs) "material"
    ∧ (buildAnalysisResult (Json.obj fs)).size = jsGet (Json.obj fs) "size"
    ∧ (buildAnalysisResult (Json.obj fs)).suggestedPeriod = jsGet (Json.obj fs) "suggestedPeriod"
    ∧ (buildAnalysisResult (Json.obj fs)).estimatedPrice = jsGet (Json.obj fs) "estimatedPrice"
    ∧ (buildAnalysisResult (Json.obj fs)).seoKeywords = jsGet (Json.obj fs) "seoKeywords"
    ∧ (buildAnalysisResult (Json.obj fs)).hashtags = jsGet (Json.obj fs) "hashtags"
    ∧ (buildAnalysisResult (Json.obj fs)).searchTerms = jsGet (Json.obj fs) "searchTerms"
    ∧ (buildAnalysisResult (Json.obj fs)).confidenceScore = jsGet (Json.obj fs) "confidenceScore" :=
  ⟨rfl, fun _ => ⟨rfl, rfl, rfl, rfl, rfl, rfl, rfl, rfl, rfl⟩⟩

/-! ## Claims C1 and C3: the ingestion loop -/

theorem okPart_ok (p : EncodedImagePart) : okPart (Except.ok p) = some p := rfl

theorem okPart_error (e : String) : okPart (Except.error e) = none := rfl

theorem errReason_ok (p : EncodedImagePart) : errReason (Except.ok p) = none := rfl

theorem errReason_error (e : String) : errReason (Except.error e) = some e := rfl

theorem ingest_foldl (env : IngestEnv) (urls : List String)
    (acc : List EncodedImagePart × List String) :
    urls.foldl (ingestStep env) acc =
      (acc.1 ++ urls.filterMap (fun u => okPart (processImage env u)),
       acc.2 ++ urls.filterMap (fun u => errReason (processImage env u))) := by
  induction urls generalizing acc with
  | nil => simp
  | cons u us ih =>
    cases hp : processImage env u with
    | ok p => simp [List.foldl_cons, ingestStep, hp, ih, okPart_ok, errReason_ok,
        List.filterMap_cons]
    | error e => simp [List.foldl_cons, ingestStep, hp, ih, okPart_error, errReason_error,
        List.filterMap_cons]

theorem ingest_eq (env : IngestEnv) (urls : List String) :
    ingest env urls =
      (urls.filterMap (fun u => okPart (processImage env u)),
       urls.filterMap (fun u => errReason (processImage env u))) := by
  simpa using ingest_foldl env urls ([], [])

theorem ingest_ok_length (env : IngestEnv) (urls : List String) :
    (urls.filterMap (fun u => okPart (processImage env u))).length =
      urls.countP (refSucceeds env) := by
  induction urls with
  | nil => rfl
  | cons u us ih =>
    cases hp : processImage env u <;>
      simp [List.filterMap_cons, List.countP_cons, hp, okPart_ok, okPart_error,
        refSucceeds, ih]

theorem ingest_lengths (env : IngestEnv) (urls : List String) :
    (urls.filterMap (fun u => okPart (processImage env u))).length +
      (urls.filterMap (fun u => errReason (processImage env u))).length =
      urls.length := by
  induction urls with
  | nil => rfl
  | cons u us ih =>
    cases hp : processImage env u <;>
      simp [List.filterMap_cons, hp, okPart_ok, okPart_error, errReason_ok,
        errReason_error] <;> omega

/-- C1: processing a batch of `N` references of which `k` are well-formed
and fetchable yields exactly `k` successes and `N - k` failures; each list
is the order-preserving projection (`filterMap`) of the input, so relative
input order is preserved, and the two lengths sum to `N`, so every input
position lands in exactly one of the two lists. -/
theorem claim_C1_ingest_partition (env : IngestEnv) (urls : List String) :
    (ingest env urls).1 = urls.filterMap (fun u => okPart (processImage env u))
  ∧ (ingest env urls).2 = urls.filterMap (fun u => errReason (processImage env u))
  ∧ (ingest env urls).1.length = urls.countP (refSucceeds env)
  ∧ (ingest env urls).2.length = urls.length - urls.countP (refSucceeds env)
  ∧ (ingest env urls).1.length + (ingest env urls).2.length = urls.length := by
  have hk := ingest_ok_length env urls
  have hs := ingest_lengths env urls
  have h1 : (ingest env urls).1 = urls.filterMap (fun u => okPart (processImage env u)) := by
    rw [ingest_eq]
  have h2 : (ingest env urls).2 = urls.filterMap (fun u => errReason (processImage env u)) := by
    rw [ingest_eq]
  refine ⟨h1, h2, ?_, ?_, ?_⟩
  · rw [h1]; exact hk
  · rw [h2]; omega
  · rw [h1, h2]; omega

/-- C3 counterexample: a reference whose URL parses but whose pathname does
not match the storage pattern is recorded in failures, but its reason is the
capitalized `Invalid storage URL format: <url>` of index.ts:145, which does
not contain the lowercase string `invalid storage URL format` stated by the
claim. -/
theorem claim_C3_counterexample :
    (ingest envBadPath ["https://example.com/nope"]).2 =
      ["Invalid storage URL format: https://example.com/nope"]
  ∧ (ingest envBadPath ["https://example.com/nope"]).1 = []
  ∧ jsIncludes "Invalid storage URL format: https://example.com/nope"
      "invalid storage URL format" = false :=
  ⟨rfl, rfl, by decide⟩

/-- C3 (amended): ingestion never raises for a malformed reference (every
outcome is a value); a reference whose pathname does not match the storage
pattern is recorded in failures, in input position, with a reason containing
the capitalized string `Invalid storage URL format`, and the remaining
references are processed exactly as they would be without it. -/
theorem claim_C3_amended_invalid_format (env : IngestEnv) (pre post : List String)
    (u : String) (pn : String)
    (hp : env.urlParse u = Except.ok pn)
    (hm : extractAfterMarker pn.data = none) :
    ingest env (pre ++ u :: post) =
      ((ingest env (pre ++ post)).1,
       (ingest env pre).2 ++
         ("Invalid storage URL format: " ++ u) :: (ingest env post).2)
  ∧ jsIncludes ("Invalid storage URL format: " ++ u) "Invalid storage URL format" = true := by
  have hu : processImage env u = Except.error ("Invalid storage URL format: " ++ u) := by
    simp [processImage, hp, hm]
  constructor
  · rw [ingest_eq, ingest_eq, ingest_eq, ingest_eq]
    simp [List.filterMap_append, List.filterMap_cons, hu, okPart_error, errReason_error]
  · exact jsIncludes_of_left "Invalid storage URL format: " u
      "Invalid storage URL format" (by decide)

theorem claim_C3_amended_invalid_format_witness :
    (ingest envBadPath ([] ++ "u1" :: ["u2"]) =
      ((ingest envBadPath ([] ++ ["u2"])).1,
       (ingest envBadPath []).2 ++
         ("Invalid storage URL format: " ++ "u1") :: (ingest envBadPath ["u2"]).2))
  ∧ jsIncludes ("Invalid storage URL format: " ++ "u1") "Invalid storage URL format" = true :=
  claim_C3_amended_invalid_format envBadPath [] ["u2"] "u1" "/nope" rfl rfl

/-! ## Claims C7, C8 and C9: the handler -/

/-- C9: for a non-OPTIONS request with the API key unset (falsy), the
handler returns 500 with the configuration error message without consulting
the Authorization header or the authentication result: the key guard of
index.ts:41 runs before the auth checks of index.ts:54-88. -/
theorem claim_C9_api_key_before_auth (env : HandlerEnv)
    (hm : env.method ≠ "OPTIONS")
    (hk : jsTruthy env.geminiApiKey = false) :
    handler env =
      ({ status := 500, body := ResponseBody.errorBody geminiKeyMissingMsg none }, false) := by
  simp [handler, hm, hk]

theorem claim_C9_api_key_before_auth_witness :
    handler envNoKey =
      ({ status := 500, body := ResponseBody.errorBody geminiKeyMissingMsg none }, false)
  ∧ envNoKey.authHeader = none ∧ envNoKey.authOk = false :=
  ⟨claim_C9_api_key_before_auth envNoKey (by decide) rfl, rfl, rfl⟩

/-- C7: when every reference fails ingestion (`imageParts` empty), the
handler never reaches the Gemini call (second component `false`) and
responds 400 with the load-failure error string and a details array equal to
the first at most three failure diagnostics in ingestion order
(index.ts:194-206). -/
theorem claim_C7_all_failed_batch (env : HandlerEnv) (urls : List String)
    (hm : env.method ≠ "OPTIONS")
    (hk : jsTruthy env.geminiApiKey = true)
    (ha : jsTruthy env.authHeader = true)
    (hu : env.authOk = true)
    (hb : env.body = Except.ok { imageUrls := ImageUrlsField.arr urls })
    (hne : urls ≠ [])
    (hempty : (ingest { urlParse := env.urlParse, download := env.download } urls).1 = []) :
    handler env =
      ({ status := 400,
         body := ResponseBody.errorBody loadImagesFailedMsg
           (some ((ingest { urlParse := env.urlParse, download := env.download } urls).2.take 3)) },
       false)
  ∧ ((ingest { urlParse := env.urlParse, download := env.download } urls).2.take 3).length ≤ 3 := by
  have hne' : urls.isEmpty = false := by
    cases urls with
    | nil => exact absurd rfl hne
    | cons a l => rfl
  constructor
  · simp [handler, hm, hk, ha, hu, hb, hne', hempty]
  · rw [List.length_take]
    omega

theorem claim_C7_all_failed_batch_witness :
    handler envAllFail =
      ({ status := 400,
         body := ResponseBody.errorBody loadImagesFailedMsg
           (some ((ingest { urlParse := envAllFail.urlParse,
                            download := envAllFail.download } ["u1"]).2.take 3)) },
       false) :=
  (claim_C7_all_failed_batch envAllFail ["u1"] (by decide) rfl rfl rfl rfl
    (by decide) rfl).1

/-- C8 counterexample: a request whose body parsing throws an internal
exception with message `boom` (not an upstream AI failure) yields a response
whose error string embeds that raw internal message, contradicting the claim
that no raw internal error text crosses the boundary except the AI message
of unknown-category failures. -/
theorem claim_C8_counterexample :
    (handler envBodyBoom).1.body = ResponseBody.errorBody "Erreur serveur: boom" none
  ∧ jsIncludes "Erreur serveur: boom" "boom" = true :=
  ⟨rfl, by decide⟩

/-- C8 (amended): every response of the handler is either a 200 (the OPTIONS
preflight or the analysis result) or a structured error body carrying an
error string; however raw internal error text can cross the boundary beyond
the AI message of unknown-category failures: the outer catch of
index.ts:478-487 returns `Erreur serveur: ` followed by the caught
exception's own message. -/
theorem claim_C8_amended_structured_errors (env : HandlerEnv) :
    ((handler env).1.status = 200 ∨
      ∃ e d, (handler env).1.body = ResponseBody.errorBody e d)
  ∧ (∀ m : String, env.method ≠ "OPTIONS" → jsTruthy env.geminiApiKey = true →
      jsTruthy env.authHeader = true → env.authOk = true →
      env.body = Except.error (some m) → m ≠ "" →
      (handler env).1 =
        { status := 500, body := ResponseBody.errorBody (serverErrorHead ++ m) none } ∧
      jsIncludes (serverErrorHead ++ m) m = true) := by
  constructor
  · unfold handler
    dsimp only
    repeat' split
    all_goals first | exact Or.inl rfl | exact Or.inr ⟨_, _, rfl⟩
  · intro m h1 h2 h3 h4 h5 h6
    have h6' : m.isEmpty = false := by
      cases hi : m.isEmpty
      · rfl
      · exact absurd ((String.isEmpty_iff m).mp hi) h6
    refine ⟨by simp [handler, h1, h2, h3, h4, h5, jsOrUnknown, h6'], ?_⟩
    exact jsIncludes_append_right serverErrorHead m

theorem claim_C8_amended_structured_errors_witness :
    (handler envBodyBoom).1 =
      { status := 500, body := ResponseBody.errorBody (serverErrorHead ++ "boom") none }
  ∧ jsIncludes (serverErrorHead ++ "boom") "boom" = true :=
  (claim_C8_amended_structured_errors envBodyBoom).2 "boom" (by decide) rfl rfl rfl rfl
    (by decide)

end EasyVinted
